import Mathlib

/-!
Shallow embedding of the `sleepys_chess` rules engine
(`src/sleepys_chess/{pieces,board,moves,moverules,parsing,gamerules}.py`)
and verification of the frozen claims about it.

Modelling conventions:
* Python strings stay `String` (squares are two-character strings such as
  "e4", position notation is built and sliced exactly as in the source).
* Python `int` becomes `Int`.
* Python dicts become insertion-ordered association lists: assignment
  replaces the value in place when the key exists and appends otherwise.
* Python exceptions are modelled with `Except String` (for `fen_to_board`,
  which mutates `self.board` in place before an `IndexError` can escape,
  the partially built board is returned alongside the error instead).
* `copy.deepcopy` over values that share no mutable state is the identity
  in a value semantics.
-/

namespace SleepysChess

/-- `pieces.py` COLOURS. -/
inductive Colour where
  | white
  | black
deriving DecidableEq, Repr

/-- `pieces.py` PIECE_TYPES = ['p', 'N', 'B', 'R', 'Q', 'K']. -/
inductive Ptype where
  | p
  | N
  | B
  | R
  | Q
  | K
deriving DecidableEq, Repr

/-- `pieces.py` `Piece`: a (type, colour) value with structural equality. -/
structure Piece where
  type : Ptype
  colour : Colour
deriving DecidableEq, Repr

/-- `utils.py` `opposite`. -/
def opposite : Colour → Colour
  | Colour.white => Colour.black
  | Colour.black => Colour.white

/-- The letter used for a piece type in move tokens and FEN (upper case). -/
def ptypeChar : Ptype → Char
  | Ptype.p => 'p'
  | Ptype.N => 'N'
  | Ptype.B => 'B'
  | Ptype.R => 'R'
  | Ptype.Q => 'Q'
  | Ptype.K => 'K'

/-- `colour` rendered as the Python string 'white' / 'black'. -/
def colourStr : Colour → String
  | Colour.white => "white"
  | Colour.black => "black"

/-! ### String helpers

Structural (kernel-reducible) versions of the Python string operations the
source uses; `String.data` is the character sequence, matching Python's
character-based semantics. -/

/-- Python `str.lower()`. -/
def strLower (s : String) : String := String.mk (s.data.map Char.toLower)

/-- Python `str.upper()`. -/
def strUpper (s : String) : String := String.mk (s.data.map Char.toUpper)

/-- Python `c in s` for a single character. -/
def strContainsChar (s : String) (c : Char) : Bool := s.data.contains c

/-- Auxiliary for `splitChar`. -/
def splitCharAux (sep : Char) : List Char → List Char → List String
  | [], acc => [String.mk acc.reverse]
  | c :: cs, acc =>
    if c == sep then String.mk acc.reverse :: splitCharAux sep cs []
    else splitCharAux sep cs (c :: acc)

/-- Python `str.split(sep)` for a one-character separator. -/
def splitChar (s : String) (sep : Char) : List String := splitCharAux sep s.data []

/-- Auxiliary for `splitWhitespace`. -/
def splitWsAux : List Char → List Char → List String
  | [], acc => if acc.isEmpty then [] else [String.mk acc.reverse]
  | c :: cs, acc =>
    if c.isWhitespace then
      if acc.isEmpty then splitWsAux cs []
      else String.mk acc.reverse :: splitWsAux cs []
    else splitWsAux cs (c :: acc)

/-- Python `str.split()` (split on whitespace runs, dropping empties). -/
def splitWhitespace (s : String) : List String := splitWsAux s.data []

/-- Digit run to a number (`none` on a non-digit). -/
def digitsVal : List Char → Nat → Option Nat
  | [], acc => some acc
  | c :: cs, acc =>
    if c.isDigit then digitsVal cs (acc * 10 + (c.toNat - 48)) else none

/-- Python `int(s)` for the decimal strings the source feeds it: an optional
    minus sign then digits; `none` models the ValueError raise.  (Python's
    extra tolerance for surrounding whitespace, '+' and '_' is unreached.) -/
def strToInt (s : String) : Option Int :=
  match s.data with
  | [] => none
  | '-' :: rest =>
    if rest.isEmpty then none else (digitsVal rest 0).map (fun n => -(n : Int))
  | l => (digitsVal l 0).map (fun n => (n : Int))

/-- `needle` starts `hay`. -/
def leadsList : List Char → List Char → Bool
  | [], _ => true
  | _ :: _, [] => false
  | a :: as, b :: bs => a == b && leadsList as bs

/-- Python `needle in hay` (substring test). -/
def strInStr (needle hay : String) : Bool :=
  hay.data.tails.any (fun t => leadsList needle.data t)

/-! ### Insertion-ordered dictionaries (Python `dict`) -/

/-- Python `d[k]` via `dict.get`-style lookup (used where absence is tolerated). -/
def dlookup {κ α : Type} [BEq κ] (d : List (κ × α)) (k : κ) : Option α :=
  (d.find? (fun kv => kv.1 == k)).map (fun kv => kv.2)

/-- Python `k in d`. -/
def dmem {κ α : Type} [BEq κ] (d : List (κ × α)) (k : κ) : Bool :=
  d.any (fun kv => kv.1 == k)

/-- Python `d[k] = v`: replace in place when the key exists, append otherwise. -/
def dinsert {κ α : Type} [BEq κ] (d : List (κ × α)) (k : κ) (v : α) : List (κ × α) :=
  if dmem d k then d.map (fun kv => if kv.1 == k then (k, v) else kv)
  else d ++ [(k, v)]

/-- Python `del d[k]` for a key known to be present (KeyError handled at call sites). -/
def derase {κ α : Type} [BEq κ] (d : List (κ × α)) (k : κ) : List (κ × α) :=
  d.filter (fun kv => !(kv.1 == k))

/-! ### Board (`board.py`) -/

/-- `board.py` FILES = 'abcdefgh'. -/
def FILES : List Char := ['a', 'b', 'c', 'd', 'e', 'f', 'g', 'h']

/-- `board.py` RANKS = '12345678'. -/
def RANKS : List Char := ['1', '2', '3', '4', '5', '6', '7', '8']

/-- `Board`: square-to-piece mapping plus king caches and the en-passant target. -/
structure Board where
  squares : List (String × Piece) := []
  white_king_pos : String := "e1"
  black_king_pos : String := "e8"
  en_passant_target : Option String := none
deriving DecidableEq, Repr

/-- `Board.__getitem__`: `None` (here `none`) when the square is empty. -/
def Board.get (b : Board) (pos : String) : Option Piece :=
  dlookup b.squares pos

/-- `Board.__contains__`. -/
def Board.hasSq (b : Board) (square : String) : Bool :=
  dmem b.squares square

/-- `Board.__setitem__`. -/
def Board.set (b : Board) (pos : String) (piece : Piece) : Board :=
  { b with squares := dinsert b.squares pos piece }

/-- `Board.__delitem__`; Python raises KeyError when the key is absent. -/
def Board.del (b : Board) (pos : String) : Except String Board :=
  if b.hasSq pos then Except.ok { b with squares := derase b.squares pos }
  else Except.error "KeyError"

/-- `int(c)` for a digit character (callers only reach this with '0'-'9'). -/
def charToInt (c : Char) : Int :=
  (c.toNat : Int) - 48

/-- First character of a two-character square string (`file, rank = [*square]`). -/
def sqFile (square : String) : Char :=
  square.data.headD '?'

/-- Rank of a two-character square string as an integer (`int(rank)`). -/
def sqRankInt (square : String) : Int :=
  charToInt (square.data.getD 1 '0')

/-- `FILES.index(file)`; Python raises ValueError when absent, here the
    out-of-range sentinel 8 is returned (unreachable on claim inputs). -/
def fileIndex (c : Char) : Int :=
  ((FILES.indexOf c : Nat) : Int)

/-- `FILES[i]`; callers guard `0 <= i < 8` (Python would raise IndexError). -/
def fileAt (i : Int) : Char :=
  FILES.getD i.toNat '?'

/-- f-string `f'{file}{rank}'` for a file character and an integer rank.
    Ranks outside 1..8 render as Python does ("a9", "a0", "a-1", ...). -/
def sqStr (file : Char) (rank : Int) : String :=
  String.mk [file] ++ toString rank

/-- `board.py` `find_pawn_attacks`: the two diagonal squares one rank ahead,
    file-bounds checked; an `is_pawn` guard empties the result on ranks 1 and 8.
    (Every call site uses the default `is_pawn=True`.) -/
def findPawnAttacks (file : Char) (rank : Int) (colour : Colour)
    (is_pawn : Bool := true) : List String :=
  if is_pawn && (rank == 8 || rank == 1) then []
  else
    ([-1, 1] : List Int).foldl (fun attacks d =>
      let attack_rank : Int := if colour == Colour.white then rank + 1 else rank - 1
      let init_findex := fileIndex file
      if 0 ≤ init_findex + d ∧ init_findex + d < 8 then
        attacks ++ [sqStr (fileAt (init_findex + d)) attack_rank]
      else attacks) []

/-- `board.py` `find_knight_attacks`. The source tests `str(rank + r) in [*RANKS]`,
    which for integers is equivalent to `1 <= rank + r <= 8`, and
    `{abs f, abs r} != {1, 2}` on sets, equivalent to the disjunction below. -/
def findKnightAttacks (file : Char) (rank : Int) : List String :=
  let init_findex := fileIndex file
  ([-2, -1, 0, 1, 2] : List Int).foldl (fun acc f =>
    ([-2, -1, 0, 1, 2] : List Int).foldl (fun acc r =>
      if f.natAbs = r.natAbs ∨ ¬(0 ≤ init_findex + f ∧ init_findex + f < 8)
          ∨ ¬(1 ≤ rank + r ∧ rank + r ≤ 8) then acc
      else if ¬((f.natAbs = 1 ∧ r.natAbs = 2) ∨ (f.natAbs = 2 ∧ r.natAbs = 1)) then acc
      else acc ++ [sqStr (fileAt (init_findex + f)) (rank + r)]) acc) []

/-- One ray of the sliding-piece scan in `find_bishop_attacks` / `find_rook_attacks`:
    `while` the target stays on the board, append it, stopping after the first
    occupied square. The Python loop's guard fails within 8 iterations whenever
    `(fsign, rsign) != (0, 0)` (all call sites), so fuel 8 is exact. -/
def rayFrom (board : Board) (init_findex rank fsign rsign : Int) :
    Nat → Int → List String
  | 0, _ => []
  | fuel + 1, offset =>
    if 1 ≤ rank + rsign * offset ∧ rank + rsign * offset ≤ 8
        ∧ 0 ≤ init_findex + fsign * offset ∧ init_findex + fsign * offset < 8 then
      let target := sqStr (fileAt (init_findex + fsign * offset)) (rank + rsign * offset)
      if board.hasSq target then [target]
      else target :: rayFrom board init_findex rank fsign rsign fuel (offset + 1)
    else []

/-- `board.py` `find_bishop_attacks`: the four diagonal rays, in
    `itertools.product([-1, 1], [-1, 1])` order. -/
def findBishopAttacks (file : Char) (rank : Int) (board : Board) : List String :=
  let init_findex := fileIndex file
  ([(-1, -1), (-1, 1), (1, -1), (1, 1)] : List (Int × Int)).foldl
    (fun targets fr => targets ++ rayFrom board init_findex rank fr.1 fr.2 8 1) []

/-- `board.py` `find_rook_attacks`: the four orthogonal rays, in
    `itertools.product(range(-1, 2), range(-1, 2))` order after the XNOR skip. -/
def findRookAttacks (file : Char) (rank : Int) (board : Board) : List String :=
  let init_findex := fileIndex file
  ([(-1, 0), (0, -1), (0, 1), (1, 0)] : List (Int × Int)).foldl
    (fun targets fr => targets ++ rayFrom board init_findex rank fr.1 fr.2 8 1) []

/-- `board.py` `find_king_attacks`: the eight adjacent squares, bounds checked. -/
def findKingAttacks (file : Char) (rank : Int) : List String :=
  let init_findex := fileIndex file
  ([(-1, -1), (-1, 0), (-1, 1), (0, -1), (0, 1), (1, -1), (1, 0), (1, 1)] :
      List (Int × Int)).foldl (fun targets fr =>
    if 1 ≤ rank + fr.2 ∧ rank + fr.2 ≤ 8
        ∧ 0 ≤ init_findex + fr.1 ∧ init_findex + fr.1 < 8 then
      targets ++ [sqStr (fileAt (init_findex + fr.1)) (rank + fr.2)]
    else targets) []

/-- `board.py` `find_attacker`: any square of `attacks` holding an opposing piece
    of one of the given types. -/
def findAttacker (attacks : List String) (types : List Ptype) (board : Board)
    (opponent : Colour) : Bool :=
  attacks.any (fun attack =>
    match board.get attack with
    | Option.none => false
    | some attacker => attacker.colour == opponent && types.contains attacker.type)

/-- `gamerules.py` `square_is_attacked` with the `(board, colour)` tuple form;
    the `GameState` form passes `(game.board, game.turn)`. -/
def squareIsAttacked (square : String) (board : Board) (colour : Colour) : Bool :=
  let opp_colour := opposite colour
  let file := sqFile square
  let rank := sqRankInt square
  findAttacker (findPawnAttacks file rank colour) [Ptype.p, Ptype.B, Ptype.Q, Ptype.K]
      board opp_colour
  || findAttacker (findKnightAttacks file rank) [Ptype.N] board opp_colour
  || findAttacker (findBishopAttacks file rank board) [Ptype.B, Ptype.Q] board opp_colour
  || findAttacker (findRookAttacks file rank board) [Ptype.R, Ptype.Q] board opp_colour
  || findAttacker (findKingAttacks file rank) [Ptype.K] board opp_colour

/-- `board.py` `possible_destinations` (the `colour` parameter is always left to
    default to `piece.colour` at every call site). -/
def possibleDestinations (piece : Piece) (square : String) (board : Board)
    (attacks_only : Bool := false) : List String :=
  let file := sqFile square
  let rank := sqRankInt square
  let colour := piece.colour
  match piece.type with
  | Ptype.p =>
    let search_squares := findPawnAttacks file rank piece.colour
    if !attacks_only then
      let sign : Int := if colour == Colour.white then 1 else -1
      let search_squares := search_squares ++ [sqStr file (rank + sign)]
      if rank == (if colour == Colour.black then 7 else 2) then
        search_squares ++ [sqStr file (rank + 2 * sign)]
      else search_squares
    else search_squares
  | Ptype.N => findKnightAttacks file rank
  | Ptype.B => findBishopAttacks file rank board
  | Ptype.R => findRookAttacks file rank board
  | Ptype.Q => findBishopAttacks file rank board ++ findRookAttacks file rank board
  | Ptype.K =>
    let search_squares := findKingAttacks file rank
    if square == (if colour == Colour.white then "e1" else "e8") && !attacks_only then
      search_squares ++ [sqStr 'g' rank, sqStr 'c' rank]
    else search_squares

/-! ### Shape/path rules (`moverules.py`) -/

/-- `moverules.py` `is_pawn_move`. The Python function returns `None` (falsy)
    when neither rank-step case applies; that is `false` here. -/
def isPawnMove (origin destination : String) (board : Board) (colour : Colour) : Bool :=
  let init_file := sqFile origin
  let init_rank := sqRankInt origin
  let dest_rank := sqRankInt destination
  let rank_steps := dest_rank - init_rank
  let factor : Int := if colour == Colour.white then 1 else -1
  if rank_steps == 2 * factor then
    let path_is_clear := ([1, 2] : List Int).all
      (fun i => !(board.hasSq (sqStr init_file (init_rank + i * factor))))
    let double_is_valid := init_rank == (if colour == Colour.white then 2 else 7)
    path_is_clear && double_is_valid
  else if rank_steps == factor then !(board.hasSq destination)
  else false

/-- `moverules.py` `is_knight_move`: `{abs dF, abs dR} == {1, 2}` on sets. -/
def isKnightMove (origin destination : String) : Bool :=
  let file_d := (fileIndex (sqFile origin) - fileIndex (sqFile destination)).natAbs
  let rank_d := (sqRankInt origin - sqRankInt destination).natAbs
  (file_d = 1 ∧ rank_d = 2) ∨ (file_d = 2 ∧ rank_d = 1)

/-- `moverules.py` `is_bishop_move`: equal-magnitude diagonal displacement with
    the path (destination excluded, `range(1, abs(file_steps))`) empty. -/
def isBishopMove (origin destination : String) (board : Board) : Bool :=
  let init_findex := fileIndex (sqFile origin)
  let init_rank := sqRankInt origin
  let rank_steps := sqRankInt destination - init_rank
  let file_steps := fileIndex (sqFile destination) - init_findex
  if rank_steps.natAbs ≠ file_steps.natAbs then false
  else
    let rsign : Int := if rank_steps > 0 then 1 else -1
    let fsign : Int := if file_steps > 0 then 1 else -1
    (List.range' 1 (file_steps.natAbs - 1)).all (fun step =>
      !(board.hasSq (sqStr (fileAt (init_findex + fsign * step)) (init_rank + rsign * step))))

/-- `moverules.py` `is_rook_move`: single-axis displacement with the path
    (destination excluded) empty. -/
def isRookMove (origin destination : String) (board : Board) : Bool :=
  let init_findex := fileIndex (sqFile origin)
  let init_rank := sqRankInt origin
  let rank_steps := sqRankInt destination - init_rank
  let file_steps := fileIndex (sqFile destination) - init_findex
  if (rank_steps == 0) == (file_steps == 0) then false
  else
    let steps := if rank_steps ≠ 0 then rank_steps else file_steps
    let sign : Int := if steps > 0 then 1 else -1
    (List.range' 1 (steps.natAbs - 1)).all (fun step =>
      let trace_findex := if file_steps ≠ 0 then init_findex + step * sign else init_findex
      let trace_rank := if rank_steps ≠ 0 then init_rank + step * sign else init_rank
      !(board.hasSq (sqStr (fileAt trace_findex) trace_rank)))

/-- `pieces.py` `is_friendly`. -/
def isFriendly (target : String) (piece : Piece) (board : Board) : Bool :=
  match board.get target with
  | Option.none => false
  | some t => t.colour == piece.colour

/-! ### Move value object (`moves.py`) -/

/-- `moves.py` `Move`. `special` keeps the source's strings
    ('en passant' / 'castling' / 'promotion'); `promote` holds the chosen
    promotion piece type; `check_str` is mutated after legality resolution. -/
structure Move where
  origin : String
  destination : String
  piece : Piece
  special : Option String := none
  promote : Option Ptype := none
  is_capture : Bool := false
  check_str : String := ""
  disambiguation : Option String := none
deriving DecidableEq, Repr

/-! ### Token parsing (`parsing.py`)

`parse_move` matches the raw token against four anchored regular expressions
(pawn / promotion / piece / castling), with `re.IGNORECASE` at the only
call site (`process_player_move`). Each match is rendered as the Python
`groupdict()`: an ordered list of (group name, optional matched text).
The matchers below are deterministic translations of those regexes,
including the backtracking order of the optional groups. -/

/-- `parsing.py` FEN_INITIAL. -/
def FEN_INITIAL : String := "rnbqkbnr/pppppppp/8/8/8/8/PPPPPPPP/RNBQKBNR w KQkq - 0 0"

/-- Groupdicts are ordered (group name, matched text or `None`) lists. -/
abbrev Groups := List (String × Option String)

/-- `[a-h]` with IGNORECASE. -/
def isFileChar (c : Char) : Bool := 'a' ≤ c.toLower && c.toLower ≤ 'h'

/-- `[1-8]`. -/
def isRankChar (c : Char) : Bool := '1' ≤ c && c ≤ '8'

/-- `[2-7]` (pawn-move destination ranks). -/
def isRank27 (c : Char) : Bool := '2' ≤ c && c ≤ '7'

/-- `[18]` (promotion destination ranks). -/
def isRank18 (c : Char) : Bool := c == '1' || c == '8'

/-- `[+#]`. -/
def isCheckChar (c : Char) : Bool := c == '+' || c == '#'

/-- `[NBRQK]` with IGNORECASE. -/
def isPieceChar (c : Char) : Bool := (['N', 'B', 'R', 'Q', 'K'] : List Char).contains c.toUpper

/-- `[NBRQ]` with IGNORECASE. -/
def isPromoChar (c : Char) : Bool := (['N', 'B', 'R', 'Q'] : List Char).contains c.toUpper

/-- `[a-h1-8]` (disambiguation hint) with IGNORECASE. -/
def isHintChar (c : Char) : Bool := isFileChar c || isRankChar c

/-- `x` with IGNORECASE. -/
def isXChar (c : Char) : Bool := c.toLower == 'x'

/-- `O` of the castling token with IGNORECASE. -/
def isOChar (c : Char) : Bool := c.toUpper == 'O'

/-- Pawn-move pattern `^((?P<origin>[a-h])(?P<capture>x))?(?P<destination>[a-h][2-7])(?P<check>[+#])?$`. -/
def matchPawn (cs : List Char) : Option Groups :=
  match cs with
  | [f, r] =>
    if isFileChar f && isRank27 r then
      some [("origin", none), ("capture", none),
            ("destination", some (String.mk [f, r])), ("check", none)]
    else none
  | [f, r, k] =>
    if isFileChar f && isRank27 r && isCheckChar k then
      some [("origin", none), ("capture", none),
            ("destination", some (String.mk [f, r])), ("check", some (String.mk [k]))]
    else none
  | [o, x, f, r] =>
    if isFileChar o && isXChar x && isFileChar f && isRank27 r then
      some [("origin", some (String.mk [o])), ("capture", some (String.mk [x])),
            ("destination", some (String.mk [f, r])), ("check", none)]
    else none
  | [o, x, f, r, k] =>
    if isFileChar o && isXChar x && isFileChar f && isRank27 r && isCheckChar k then
      some [("origin", some (String.mk [o])), ("capture", some (String.mk [x])),
            ("destination", some (String.mk [f, r])), ("check", some (String.mk [k]))]
    else none
  | _ => none

/-- Promotion pattern
    `^((?P<origin>[a-h])(?P<capture>x))?(?P<destination>[a-h][18])(=(?P<promotion>[NBRQ]))(?P<check>[+#])?$`. -/
def matchPromotion (cs : List Char) : Option Groups :=
  match cs with
  | [f, r, e, pr] =>
    if isFileChar f && isRank18 r && e == '=' && isPromoChar pr then
      some [("origin", none), ("capture", none),
            ("destination", some (String.mk [f, r])), ("promotion", some (String.mk [pr])),
            ("check", none)]
    else none
  | [f, r, e, pr, k] =>
    if isFileChar f && isRank18 r && e == '=' && isPromoChar pr && isCheckChar k then
      some [("origin", none), ("capture", none),
            ("destination", some (String.mk [f, r])), ("promotion", some (String.mk [pr])),
            ("check", some (String.mk [k]))]
    else none
  | [o, x, f, r, e, pr] =>
    if isFileChar o && isXChar x && isFileChar f && isRank18 r && e == '='
        && isPromoChar pr then
      some [("origin", some (String.mk [o])), ("capture", some (String.mk [x])),
            ("destination", some (String.mk [f, r])), ("promotion", some (String.mk [pr])),
            ("check", none)]
    else none
  | [o, x, f, r, e, pr, k] =>
    if isFileChar o && isXChar x && isFileChar f && isRank18 r && e == '='
        && isPromoChar pr && isCheckChar k then
      some [("origin", some (String.mk [o])), ("capture", some (String.mk [x])),
            ("destination", some (String.mk [f, r])), ("promotion", some (String.mk [pr])),
            ("check", some (String.mk [k]))]
    else none
  | _ => none

/-- Tail of the piece pattern after the piece letter:
    `(?P<origin>[a-h1-8])?(?P<capture>x)?(?P<destination>[a-h][1-8])(?P<check>[+#])?$`,
    with the regex engine's greedy backtracking order over the optional groups. -/
def matchPieceTail (cs : List Char) :
    Option (Option Char × Option Char × String × Option Char) :=
  match cs with
  | [f, r] =>
    if isFileChar f && isRankChar r then some (none, none, String.mk [f, r], none) else none
  | [a, f, r] =>
    if isHintChar a && isFileChar f && isRankChar r then
      some (some a, none, String.mk [f, r], none)
    else if isXChar a && isFileChar f && isRankChar r then
      some (none, some a, String.mk [f, r], none)
    else if isFileChar a && isRankChar f && isCheckChar r then
      some (none, none, String.mk [a, f], some r)
    else none
  | [a, b, f, r] =>
    if isHintChar a && isXChar b && isFileChar f && isRankChar r then
      some (some a, some b, String.mk [f, r], none)
    else if isHintChar a && isFileChar b && isRankChar f && isCheckChar r then
      some (some a, none, String.mk [b, f], some r)
    else if isXChar a && isFileChar b && isRankChar f && isCheckChar r then
      some (none, some a, String.mk [b, f], some r)
    else none
  | [a, b, f, r, k] =>
    if isHintChar a && isXChar b && isFileChar f && isRankChar r && isCheckChar k then
      some (some a, some b, String.mk [f, r], some k)
    else none
  | _ => none

/-- Piece pattern `^(?P<piece>[NBRQK]) ... $`. -/
def matchPiece (cs : List Char) : Option Groups :=
  match cs with
  | pc :: rest =>
    if isPieceChar pc then
      (matchPieceTail rest).map (fun g =>
        [("piece", some (String.mk [pc])),
         ("origin", g.1.map (fun c => String.mk [c])),
         ("capture", g.2.1.map (fun c => String.mk [c])),
         ("destination", some g.2.2.1),
         ("check", g.2.2.2.map (fun c => String.mk [c]))])
    else none
  | [] => none

/-- Castling pattern `^(?P<side>O-O(-O)?)(?P<check>[+#])?$`. -/
def matchCastling (cs : List Char) : Option Groups :=
  match cs with
  | [o1, d1, o2] =>
    if isOChar o1 && d1 == '-' && isOChar o2 then
      some [("side", some (String.mk [o1, d1, o2])), ("check", none)]
    else none
  | [o1, d1, o2, k] =>
    if isOChar o1 && d1 == '-' && isOChar o2 && isCheckChar k then
      some [("side", some (String.mk [o1, d1, o2])), ("check", some (String.mk [k]))]
    else none
  | [o1, d1, o2, d2, o3] =>
    if isOChar o1 && d1 == '-' && isOChar o2 && d2 == '-' && isOChar o3 then
      some [("side", some (String.mk [o1, d1, o2, d2, o3])), ("check", none)]
    else none
  | [o1, d1, o2, d2, o3, k] =>
    if isOChar o1 && d1 == '-' && isOChar o2 && d2 == '-' && isOChar o3
        && isCheckChar k then
      some [("side", some (String.mk [o1, d1, o2, d2, o3])), ("check", some (String.mk [k]))]
    else none
  | _ => none

/-- `parse_move`'s per-match record: the (re-normalized) token, the grammar
    label, and the groupdict. -/
structure MoveData where
  move : String
  type : String
  details : Groups
deriving DecidableEq, Repr

/-- `parsing.py` `normalize_move_data`: lower-case origin/capture/destination,
    upper-case piece/promotion/side, and rebuild the token in algebraic order. -/
def normalizeMoveData (md : MoveData) : MoveData :=
  let det := md.details.map (fun kv =>
    if (["origin", "capture", "destination"] : List String).contains kv.1 then
      (kv.1, kv.2.map strLower)
    else if (["piece", "promotion", "side"] : List String).contains kv.1 then
      (kv.1, kv.2.map strUpper)
    else kv)
  let normalized := (["piece", "origin", "capture", "destination",
      "promotion", "side", "check"] : List String).foldl (fun acc k =>
    match (dlookup det k).bind id with
    | some component =>
      if component ≠ "" then
        acc ++ (if k == "promotion" then "=" ++ component else component)
      else acc
    | Option.none => acc) ""
  { md with move := normalized, details := det }

/-- `parsing.py` `parse_move` with `re.IGNORECASE` (the flags value passed by
    `process_player_move`): the matches over the four grammars in dictionary
    order; `none` models the `ValueError('Invalid move')` raise. Python returns
    the single dict when exactly one grammar matches and the list otherwise;
    callers recover that by the length of this list. -/
def parseMove (player_move : String) : Option (List MoveData) :=
  let cs := player_move.data
  let matchList := ([
    (matchPawn cs).map (fun g =>
      normalizeMoveData { move := player_move, type := "pawn", details := g }),
    (matchPromotion cs).map (fun g =>
      normalizeMoveData { move := player_move, type := "promotion", details := g }),
    (matchPiece cs).map (fun g =>
      normalizeMoveData { move := player_move, type := "piece", details := g }),
    (matchCastling cs).map (fun g =>
      normalizeMoveData { move := player_move, type := "castling", details := g })] :
      List (Option MoveData)).reduceOption
  if matchList == [] then none else some matchList

/-! ### Game state (`gamerules.py`) -/

/-- `self.can_castle`: a four-key dict with fixed insertion order
    white_kingside, white_queenside, black_kingside, black_queenside. -/
structure CastleRights where
  white_kingside : Bool := true
  white_queenside : Bool := true
  black_kingside : Bool := true
  black_queenside : Bool := true
deriving DecidableEq, Repr

/-- `self.in_check`. -/
structure CheckFlags where
  white : Bool := false
  black : Bool := false
deriving DecidableEq, Repr

def CheckFlags.get (cf : CheckFlags) : Colour → Bool
  | Colour.white => cf.white
  | Colour.black => cf.black

/-- One entry of `move_history`: a dict holding the white and/or black move
    of a fullmove. -/
structure HistEntry where
  white : Option Move := none
  black : Option Move := none
deriving DecidableEq, Repr

/-- `GameState.__init__` defaults.  `stray_en_passant_target` models the
    attribute created by `validate_move` line 512, which assigns
    `game.en_passant_target` (on the GameState object) instead of
    `game.board.en_passant_target`; nothing in the source ever reads it. -/
structure GameState where
  board : Board := {}
  turn : Colour := Colour.white
  can_castle : CastleRights := {}
  in_check : CheckFlags := {}
  is_end : Bool := false
  end_state : Option String := none
  winner : Option String := none
  move_history : List HistEntry := []
  position_history : List (Int × String) := []
  position_count : List (String × Int) := []
  halfmove_clock : Int := 0
  fullmoves : Int := 0
  stray_en_passant_target : Option String := none
deriving DecidableEq, Repr

def castleFlagGet (cr : CastleRights) : Colour → Bool → Bool
  | Colour.white, true => cr.white_kingside
  | Colour.white, false => cr.white_queenside
  | Colour.black, true => cr.black_kingside
  | Colour.black, false => cr.black_queenside

/-- The FEN letter of a piece: `to_fen[colour](type)`. -/
def pieceFenChar (piece : Piece) : Char :=
  if piece.colour == Colour.white then (ptypeChar piece.type).toUpper
  else (ptypeChar piece.type).toLower

/-- `board.py` `board_to_fen`: ranks 8 down to 1, run-length encoding of
    empty files with the counter flushed at file h. -/
def boardToFen (b : Board) : String :=
  let board_list := RANKS.reverse.map (fun rank =>
    (FILES.foldl (fun (acc : String × Int) file =>
      let pos := String.mk [file, rank]
      match b.get pos with
      | Option.none =>
        let space_counter := acc.2 + 1
        if file == 'h' && space_counter ≠ 0 then
          (acc.1 ++ toString space_counter, space_counter)
        else (acc.1, space_counter)
      | some piece =>
        let flushed := if acc.2 ≠ 0 then acc.1 ++ toString acc.2 else acc.1
        (flushed ++ String.mk [pieceFenChar piece], 0)) ("", 0)).1)
  String.intercalate "/" board_list

/-- `gamerules.py` `GameState.generate_fen`. -/
def generateFen (g : GameState) : String :=
  let fen_board := boardToFen g.board
  let fen_turn := if g.turn == Colour.white then "w" else "b"
  let fen_castling :=
    (if g.can_castle.white_kingside then "K" else "")
    ++ (if g.can_castle.white_queenside then "Q" else "")
    ++ (if g.can_castle.black_kingside then "k" else "")
    ++ (if g.can_castle.black_queenside then "q" else "")
  let fen_castling := if fen_castling == "" then "-" else fen_castling
  let fen_passant_target := match g.board.en_passant_target with
    | some t => t
    | Option.none => "-"
  String.intercalate " "
    [fen_board, fen_turn, fen_castling, fen_passant_target,
     toString g.halfmove_clock, toString g.fullmoves]

/-- Scan state of `fen_to_board`'s character loop. -/
structure FenScan where
  board : Board
  rank : Int := 8
  findex : Int := 0

/-- Piece type decoded from a FEN letter: `char.lower() == 'p'` first, then
    `char.upper() in PIECE_TYPES` (note 'P'/'p' are both caught by the first
    branch, and 'P' is not in PIECE_TYPES). -/
def pieceTypeOfFenChar (ch : Char) : Option Ptype :=
  if ch.toLower == 'p' then some Ptype.p
  else if ch.toUpper == 'N' then some Ptype.N
  else if ch.toUpper == 'B' then some Ptype.B
  else if ch.toUpper == 'R' then some Ptype.R
  else if ch.toUpper == 'Q' then some Ptype.Q
  else if ch.toUpper == 'K' then some Ptype.K
  else none

/-- `board.py` `Board.fen_to_board`.  The Python method mutates `self` while
    scanning and an `IndexError` from `FILES[findex]` escapes mid-scan, so the
    board built so far is returned alongside the error. -/
def fenToBoard (fen_board : String) (b0 : Board) : Board × Option String :=
  let res := fen_board.data.foldl (fun (st : FenScan × Option String) ch =>
    match st.2 with
    | some _ => st
    | Option.none =>
      let s := st.1
      if ch == '/' then ({ s with rank := s.rank - 1, findex := 0 }, none)
      else if ch.isDigit then ({ s with findex := s.findex + charToInt ch }, none)
      else if ¬(0 ≤ s.findex ∧ s.findex < 8) then (s, some "IndexError")
      else
        let file := fileAt s.findex
        let pos := String.mk [file] ++ toString s.rank
        let ptype? := pieceTypeOfFenChar ch
        let colour := if ch.isUpper then Colour.white else Colour.black
        let board := if ch == 'k' then { s.board with black_king_pos := pos }
          else if ch == 'K' then { s.board with white_king_pos := pos }
          else s.board
        match ptype? with
        | Option.none => ({ s with board := board, findex := s.findex + 1 }, none)
        | some t =>
          ({ s with board := board.set pos ⟨t, colour⟩, findex := s.findex + 1 }, none))
    ({ board := b0 }, none)
  (res.1.board, res.2)

/-- The characters admitted by the placement-field regex character class
    `[rnbqkpRNBQKP1-8]`. -/
def fenRankCharOk (c : Char) : Bool :=
  (['r', 'n', 'b', 'q', 'k', 'p', 'R', 'N', 'B', 'Q', 'K', 'P',
    '1', '2', '3', '4', '5', '6', '7', '8'] : List Char).contains c

/-- One group of the placement regex: 1 to 8 characters of the class. -/
def fenSegmentOk (s : String) : Bool :=
  1 ≤ s.length && s.length ≤ 8 && s.data.all fenRankCharOk

/-- `load_fen`'s shape check `^([rnbqkpRNBQKP1-8]{1,8}(/|\Z)){8}$`.  Because
    the class excludes '/', every group consumes a whole '/'-separated segment,
    so the regex matches exactly the strings whose `splitOn "/"` yields 8
    segments of 1-8 class characters — or 9 segments with the ninth empty,
    since the eighth group's `(/|\Z)` may consume a trailing slash.  Note the
    regex does NOT require a rank's files to sum to 8. -/
def fenBoardShapeOk (s : String) : Bool :=
  let segs := splitChar s '/'
  (segs.length == 8 && segs.all fenSegmentOk)
  || (segs.length == 9 && (segs.take 8).all fenSegmentOk && segs.getLast? == some "")

/-- `gamerules.py` `GameState.load_fen`.  Exceptions (`ValueError` from the
    unpacking / regex / `int()` calls, `IndexError` escaping `fen_to_board`)
    are returned as `some message` together with the state as mutated so far,
    mirroring the in-place mutation of `self`. -/
def loadFen (g0 : GameState) (fen : String) (is_start : Bool := true) :
    GameState × Option String :=
  match splitWhitespace fen with
  | [board_f, turn_f, castling_f, ep_f, half_f, full_f] =>
    if ¬(fenBoardShapeOk board_f) then (g0, some "ValueError: FEN is not valid!")
    else
      let fb := fenToBoard board_f g0.board
      let g1 := { g0 with board := fb.1 }
      match fb.2 with
      | some e => (g1, some e)
      | Option.none =>
        let g2 := { g1 with turn := if turn_f == "w" then Colour.white else Colour.black }
        -- castling block (lines 135-140): flags by membership, and in_check
        -- recomputed for both colours — but only when the field is not '-'
        let g3 :=
          if castling_f == "-" then g2
          else
            let cc : CastleRights := {
              white_kingside := strContainsChar castling_f 'K',
              white_queenside := strContainsChar castling_f 'Q',
              black_kingside := strContainsChar castling_f 'k',
              black_queenside := strContainsChar castling_f 'q' }
            let ic : CheckFlags := {
              white := squareIsAttacked g2.board.white_king_pos g2.board Colour.white,
              black := squareIsAttacked g2.board.black_king_pos g2.board Colour.black }
            { g2 with can_castle := cc, in_check := ic }
        let g4 :=
          if ep_f == "-" then g3
          else { g3 with board := { g3.board with en_passant_target := some ep_f } }
        match strToInt half_f with
        | Option.none => (g4, some "ValueError: int()")
        | some h =>
          let g5 := { g4 with halfmove_clock := h }
          let finish := fun (fm : Int) =>
            let g6 := { g5 with fullmoves := fm }
            let g7 :=
              if is_start then { g6 with position_history := dinsert g6.position_history 0 fen }
              else g6
            (g7, (none : Option String))
          if full_f == "-" then finish 0
          else match strToInt full_f with
            | Option.none => (g5, some "ValueError: int()")
            | some fm => finish fm
  | _ => (g0, some "ValueError: unpack")

/-- A fresh `GameState()` before `__init__` runs `load_fen` (all defaults). -/
def GameState.new : GameState := {}

/-- `GameState(fen)` when construction succeeds. -/
def gameFromFen (fen : String) : Option GameState :=
  match loadFen GameState.new fen true with
  | (g, Option.none) => some g
  | _ => none

/-! ### Move application and legality (`gamerules.py`) -/

/-- `gamerules.py` `GameState.make_move`.  Exceptions (empty origin, en-passant
    bookkeeping on a missing target, a missing castling rook) are modelled with
    `Except.error`.  Note the source's lines 228-230: for a rook leaving its
    home square the statement `self.can_castle[...] == False` is a comparison
    whose result is discarded (`==`, not `=`), so no castling flag is cleared
    there; the embedding therefore has no rook branch effect. -/
def makeMove (g0 : GameState) (move : Move) : Except String GameState := do
  let piece0 ← match g0.board.get move.origin with
    | some pc => Except.ok pc
    | Option.none => Except.error "AttributeError: board[origin] is None"
  let back_rank : Int := if piece0.colour == Colour.white then 1 else 8
  let step1 : Except String (GameState × Piece) :=
    if move.special == some "en passant" then do
      let target0 ← match g0.board.en_passant_target with
        | some t => Except.ok t
        | Option.none => Except.error "TypeError: cannot unpack None"
      let target_file := sqFile target0
      let tr := sqRankInt target0
      let target_rank := if g0.turn == Colour.black then tr + 1 else tr - 1
      let target := sqStr target_file target_rank
      let b ← g0.board.del target
      Except.ok ({ g0 with board := b }, piece0)
    else if move.special == some "castling" then do
      let dest_file := sqFile move.destination
      let rook_origin := if dest_file == 'c' then sqStr 'a' back_rank else sqStr 'h' back_rank
      let rook_destination :=
        if dest_file == 'c' then sqStr 'd' back_rank else sqStr 'f' back_rank
      let rook ← match g0.board.get rook_origin with
        | some r => Except.ok r
        | Option.none => Except.error "KeyError: rook origin empty"
      let b1 ← g0.board.del rook_origin
      let b2 := b1.set rook_destination rook
      Except.ok ({ g0 with board := b2 }, piece0)
    else if move.special == some "promotion" then
      match move.promote with
      | some t => Except.ok (g0, (⟨t, piece0.colour⟩ : Piece))
      | Option.none => Except.error "promotion without a promotion piece"
    else Except.ok (g0, piece0)
  let (g1, piece) ← step1
  let b3 := g1.board.set move.destination piece
  let b4 ← b3.del move.origin
  let g2 := { g1 with board := b4 }
  -- lines 228-230: `self.can_castle[f'{colour}{side}'] == False` — no effect
  let g3 :=
    if piece.type == Ptype.K then
      { g2 with can_castle :=
          if piece.colour == Colour.white then
            { g2.can_castle with white_kingside := false, white_queenside := false }
          else
            { g2.can_castle with black_kingside := false, black_queenside := false } }
    else g2
  let last_turn := g3.turn
  let g4 := { g3 with turn := opposite g3.turn }
  let g5 :=
    if piece.type == Ptype.K && last_turn == Colour.white then
      { g4 with board := { g4.board with white_king_pos := move.destination } }
    else if piece.type == Ptype.K && last_turn == Colour.black then
      { g4 with board := { g4.board with black_king_pos := move.destination } }
    else g4
  Except.ok g5

/-- `copy.deepcopy` of a `GameState`: a structurally equal value sharing no
    mutable state with the original — the identity in a value semantics. -/
def deepcopy (g : GameState) : GameState := g

/-- `gamerules.py` `simulate_move`: apply the move to a deep copy. -/
def simulateMove (move : Move) (game : GameState) : Except String GameState := do
  let clone_game := deepcopy game
  makeMove clone_game move

/-- `gamerules.py` `square_remains_safe`. -/
def squareRemainsSafe (square : String) (move : Move) (game : GameState)
    (colour : Colour) : Except String Bool := do
  let sim ← simulateMove move game
  Except.ok (!(squareIsAttacked square sim.board colour))

/-- `gamerules.py` `area_is_safe` (the `square_is_attacked(square, game)` call
    uses `(game.board, game.turn)`). -/
def areaIsSafe (squares : List String) (game : GameState) : Bool :=
  !(squares.any (fun s => squareIsAttacked s game.board game.turn))

/-- `gamerules.py` `area_is_empty`. -/
def areaIsEmpty (squares : List String) (game : GameState) : Bool :=
  !(squares.any (fun s => game.board.hasSq s))

/-- `gamerules.py` `can_castle_kingside`: rights flag, f/g empty, e/f/g safe. -/
def canCastleKingside (piece : Piece) (game : GameState) : Bool :=
  let r : Int := if piece.colour == Colour.white then 1 else 8
  castleFlagGet game.can_castle piece.colour true
    && areaIsEmpty [sqStr 'f' r, sqStr 'g' r] game
    && areaIsSafe [sqStr 'e' r, sqStr 'f' r, sqStr 'g' r] game

/-- `gamerules.py` `can_castle_queenside`: rights flag, d/c empty (the b-file
    square is NOT tested in the source), e/d/c safe. -/
def canCastleQueenside (piece : Piece) (game : GameState) : Bool :=
  let r : Int := if piece.colour == Colour.white then 1 else 8
  castleFlagGet game.can_castle piece.colour false
    && areaIsEmpty [sqStr 'd' r, sqStr 'c' r] game
    && areaIsSafe [sqStr 'e' r, sqStr 'd' r, sqStr 'c' r] game

/-- `gamerules.py` `is_legal_move`.  An empty origin square makes the Python
    function crash (via `piece.colour` or inside the speculative
    `make_move`), modelled as an error. -/
def isLegalMove (move : Move) (game : GameState) : Except String Bool := do
  let board := game.board
  let piece ← match board.get move.origin with
    | some pc => Except.ok pc
    | Option.none => Except.error "AttributeError: board[origin] is None"
  let king_pos :=
    if move.piece.type == Ptype.K then move.destination
    else if piece.colour == Colour.white then board.white_king_pos
    else board.black_king_pos
  let king_is_safe ← squareRemainsSafe king_pos move game piece.colour
  if !king_is_safe || isFriendly move.destination piece board
      || !(piece == move.piece) then
    Except.ok false
  else
    let opp_colour := opposite move.piece.colour
    if !(board.hasSq move.origin) || !(piece.colour == move.piece.colour) then
      Except.ok false
    else
      let init_rank := sqRankInt move.origin
      let init_findex := fileIndex (sqFile move.origin)
      let dest_rank := sqRankInt move.destination
      let dest_findex := fileIndex (sqFile move.destination)
      match piece.type with
      | Ptype.p =>
        let rank_steps := dest_rank - init_rank
        let file_steps := dest_findex - init_findex
        let factor : Int := if piece.colour == Colour.white then 1 else -1
        if file_steps.natAbs > 1 then Except.ok false
        else if file_steps.natAbs == 1 && rank_steps == factor then
          match board.get move.destination with
          | some dp => Except.ok (dp.colour == opp_colour)
          | Option.none =>
            Except.ok (game.board.en_passant_target == some move.destination)
        else Except.ok (isPawnMove move.origin move.destination board piece.colour)
      | Ptype.N => Except.ok (isKnightMove move.origin move.destination)
      | Ptype.B => Except.ok (isBishopMove move.origin move.destination board)
      | Ptype.R => Except.ok (isRookMove move.origin move.destination board)
      | Ptype.Q => Except.ok (isBishopMove move.origin move.destination board
          || isRookMove move.origin move.destination board)
      | Ptype.K =>
        if move.special == some "castling" then
          if canCastleKingside piece game && move.destination == sqStr 'g' init_rank then
            Except.ok true
          else if canCastleQueenside piece game
              && move.destination == sqStr 'c' init_rank then
            Except.ok true
          else Except.ok false
        else do
          let v1 := (init_findex - dest_findex).natAbs
          let v2 := (init_rank - dest_rank).natAbs
          let is_single_step := max v1 v2 == 1 && v1 + v2 > 0
          let is_safe ← squareRemainsSafe move.destination move game move.piece.colour
          if is_single_step && is_safe then Except.ok true else Except.ok false

/-- The call `is_legal_move(move, game)` as the caller sees it: the Boolean
    (or exception) together with the caller's state after the call.  The
    function performs no assignment on `game`; its speculative probe runs on
    the `deepcopy` clone inside `squareRemainsSafe`, so the caller's state is
    returned unchanged. -/
def isLegalMoveCall (move : Move) (game : GameState) :
    (Except String Bool) × GameState :=
  (isLegalMove move game, game)

/-! ### Token validation and game orchestration (`gamerules.py`) -/

/-- Piece type from its (normalized, upper-case) token letter. -/
def ptypeOfStr (s : String) : Option Ptype :=
  if s == "N" then some Ptype.N
  else if s == "B" then some Ptype.B
  else if s == "R" then some Ptype.R
  else if s == "Q" then some Ptype.Q
  else if s == "K" then some Ptype.K
  else if s == "p" then some Ptype.p
  else none

/-- Result of `validate_move`: a resolved `Move`, a `None` failure, or the
    unresolved candidate-origin set of an ambiguous piece move. -/
inductive VResult where
  | found (m : Move)
  | failed
  | ambig (origins : List String)
deriving DecidableEq, Repr

/-- `gamerules.py` `validate_move`.  The state is threaded because the pawn
    branch's line 512 executes `game.en_passant_target = ...` — creating a
    stray, never-read attribute on the GameState (NOT the board's target);
    that is the only mutation the function performs. -/
def validateMove (move_data : MoveData) (game : GameState) (player : Colour) :
    Except String (VResult × GameState) := do
  let board := game.board
  let move_details := move_data.details
  let destination? := (dlookup move_details "destination").bind id
  let is_capture :=
    match destination? with
    | some destination =>
      (game.board.en_passant_target == some destination && move_data.type == "pawn")
      || board.hasSq destination
    | Option.none => false
  let captureKey := dlookup move_details "capture"
  -- capture exists, not in syntax
  if is_capture && captureKey == some Option.none then
    Except.ok (VResult.failed, game)
  -- capture does not exist, exists in syntax
  else if !is_capture && (match captureKey with
      | some (some _) => true
      | _ => false) then
    Except.ok (VResult.failed, game)
  else
    match move_data.type with
    | "pawn" =>
      let destination := destination?.getD ""
      let dest_file := sqFile destination
      let dest_rank := sqRankInt destination
      let sign : Int := if player == Colour.white then 1 else -1
      let captureVal := (dlookup move_details "capture").bind id
      let origin_file : String :=
        match captureVal with
        | some _ => ((dlookup move_details "origin").bind id).getD ""
        | Option.none => String.mk [dest_file]
      let origin_rank := dest_rank - sign
      let double_rank : Int := if player == Colour.white then 4 else 5
      let origin_rank? : Option Int :=
        if dest_rank == double_rank then
          let potential_o_ranks := ([dest_rank - 2 * sign, dest_rank - sign] : List Int)
          let remaining := potential_o_ranks.filter (fun o_rank =>
            board.get (origin_file ++ toString o_rank) == some ⟨Ptype.p, player⟩)
          match remaining with
          | [o] => some o
          | [o1, o2] =>
            -- min(..., key=lambda r: abs(double_rank - r)): ties keep the first
            some (if (double_rank - o1).natAbs ≤ (double_rank - o2).natAbs then o1 else o2)
          | _ => none
        else some origin_rank
      match origin_rank? with
      | Option.none => Except.ok (VResult.failed, game)
      | some origin_rank =>
        let pawn_origin := origin_file ++ toString origin_rank
        let pawn? := board.get pawn_origin
        let is_double := (origin_rank - dest_rank).natAbs == 2
        let is_en_passant := game.board.en_passant_target == some destination
        -- Python builds Move(pawn_origin, destination, pawn) first; it only
        -- reaches is_legal_move under `pawn == Piece('p', player)`
        if pawn? == some (⟨Ptype.p, player⟩ : Piece) then
          let move : Move := {
            origin := pawn_origin, destination := destination,
            piece := ⟨Ptype.p, player⟩,
            is_capture := is_en_passant || is_capture,
            special := if is_en_passant then some "en passant" else none }
          let legal ← isLegalMove move game
          if legal then
            -- line 512: `game.en_passant_target = f'{dest_file}{dest_rank - sign}'`
            -- assigns a stray attribute on the GameState, not the board's target
            let game :=
              if is_double then
                let stray := some (String.mk [dest_file] ++ toString (dest_rank - sign))
                { game with stray_en_passant_target := stray }
              else game
            Except.ok (VResult.found move, game)
          else Except.ok (VResult.failed, game)
        else Except.ok (VResult.failed, game)
    | "promotion" =>
      let destination := destination?.getD ""
      let dest_file := sqFile destination
      let origin_rank : String := if player == Colour.white then "7" else "2"
      let captureVal := (dlookup move_details "capture").bind id
      let origin_file : String :=
        match captureVal with
        | some _ => ((dlookup move_details "origin").bind id).getD ""
        | Option.none => String.mk [dest_file]
      let pawn_origin := origin_file ++ origin_rank
      let pawn? := board.get pawn_origin
      let promote_type := ((dlookup move_details "promotion").bind id).getD ""
      if pawn? == some (⟨Ptype.p, player⟩ : Piece) then
        let move : Move := {
          origin := pawn_origin, destination := destination,
          piece := ⟨Ptype.p, player⟩,
          is_capture := is_capture,
          special := some "promotion", promote := ptypeOfStr promote_type }
        let legal ← isLegalMove move game
        if legal then Except.ok (VResult.found move, game)
        else Except.ok (VResult.failed, game)
      else Except.ok (VResult.failed, game)
    | "piece" =>
      let destination := destination?.getD ""
      let piece_type := (ptypeOfStr (((dlookup move_details "piece").bind id).getD "")).getD Ptype.p
      let origin_hint := (dlookup move_details "origin").bind id
      let piece : Piece := ⟨piece_type, player⟩
      let search_squares := possibleDestinations piece destination game.board true
      -- Python accumulates candidates in a set; the squares are distinct, but
      -- set iteration order is unspecified — our traces resolve to at most one
      -- candidate or filter by a hint that matches exactly one
      let origin_set := search_squares.filter (fun square =>
        board.get square == some piece)
      if origin_set.isEmpty then Except.ok (VResult.failed, game)
      else
        let origin? : Option String :=
          if origin_set.length > 1 then
            match origin_hint with
            | some hint =>
              if hint ≠ "" then
                origin_set.find? (fun square =>
                  strInStr hint square)  -- `origin_hint in square`
              else none
            | Option.none => none
          else some (origin_set.headD "")
        match origin? with
        | Option.none => Except.ok (VResult.ambig origin_set, game)
        | some origin =>
          let move : Move := {
            origin := origin, destination := destination, piece := piece,
            disambiguation := origin_hint, is_capture := is_capture }
          let legal ← isLegalMove move game
          if legal then Except.ok (VResult.found move, game)
          else Except.ok (VResult.failed, game)
    | "castling" =>
      let origin : String := if player == Colour.white then "e1" else "e8"
      let king? := board.get origin
      let file : Char :=
        if (dlookup move_details "side").bind id == some "O-O" then 'g' else 'c'
      let rank := origin.data.getLastD '?'
      let destination := String.mk [file, rank]
      if king? == some (⟨Ptype.K, player⟩ : Piece) then
        let move : Move := {
          origin := origin, destination := destination,
          piece := ⟨Ptype.K, player⟩, special := some "castling" }
        let legal ← isLegalMove move game
        if legal then Except.ok (VResult.found move, game)
        else Except.ok (VResult.failed, game)
      else Except.ok (VResult.failed, game)
    | _ => Except.ok (VResult.failed, game)

/-- `gamerules.py` `GameState.update_check`: recompute both colours' check
    flags from the cached king squares. -/
def updateCheck (g : GameState) : GameState :=
  { g with in_check := {
      white := squareIsAttacked g.board.white_king_pos g.board Colour.white,
      black := squareIsAttacked g.board.black_king_pos g.board Colour.black } }

/-- `gamerules.py` `GameState.legal_moves(flag='any')`: short-circuit scan of
    the side to move's pieces, returning at the first legal move. -/
def legalMovesAny (g : GameState) : Except String Bool :=
  g.board.squares.foldlM (fun (found : Bool) sp => do
    if found then Except.ok true
    else
      let (square, piece) := sp
      if piece.colour == g.turn then
        let search_squares := possibleDestinations piece square g.board false
        search_squares.foldlM (fun (f : Bool) dest => do
          if f then Except.ok true
          else
            let move : Move := { origin := square, destination := dest, piece := piece }
            isLegalMove move g) false
      else Except.ok false) false

/-- `gamerules.py` `GameState.legal_moves()`: collect every legal move of the
    side to move. -/
def legalMovesList (g : GameState) : Except String (List Move) :=
  g.board.squares.foldlM (fun (acc : List Move) sp => do
    let (square, piece) := sp
    if piece.colour == g.turn then
      let search_squares := possibleDestinations piece square g.board false
      search_squares.foldlM (fun (acc : List Move) dest => do
        let move : Move := { origin := square, destination := dest, piece := piece }
        let legal ← isLegalMove move g
        if legal then Except.ok (acc ++ [move]) else Except.ok acc) acc
    else Except.ok acc) []

/-- `gamerules.py` `GameState.check_if_end`: checkmate / stalemate / threefold
    repetition / 50-move rule, in that priority order.  The repetition key is
    `generate_fen()[:-4]` — the FEN with its last four CHARACTERS removed. -/
def checkIfEnd (g : GameState) : Except String GameState := do
  let player := g.turn
  let has_legal_moves ← legalMovesAny g
  let last_position := generateFen g
  if g.in_check.get player && !has_legal_moves then
    let w := some (colourStr (opposite player))
    Except.ok { g with is_end := true, end_state := some "checkmate", winner := w }
  else if !has_legal_moves then
    Except.ok { g with is_end := true, end_state := some "stalemate", winner := some "draw" }
  else if dlookup g.position_count (last_position.dropRight 4) == some 3 then
    Except.ok { g with is_end := true, end_state := some "threefold repetition", winner := some "draw" }
  else if g.halfmove_clock ≥ 100 then
    Except.ok { g with is_end := true, end_state := some "50 move rule", winner := some "draw" }
  else Except.ok g

/-- Set the `last_turn` move of the last history entry (lines 320-324). -/
def setHistMove (hist : List HistEntry) (colour : Colour) (m : Move) :
    List HistEntry :=
  match hist.reverse with
  | [] => hist
  | last :: revRest =>
    let last' := if colour == Colour.white then { last with white := some m }
      else { last with black := some m }
    (last' :: revRest).reverse

/-- Update the check suffix of `move_history[-1][last_turn]` (line 339). -/
def setHistCheckStr (hist : List HistEntry) (colour : Colour) (s : String) :
    List HistEntry :=
  match hist.reverse with
  | [] => hist
  | last :: revRest =>
    let last' :=
      if colour == Colour.white then
        { last with white := last.white.map (fun m => { m with check_str := s }) }
      else
        { last with black := last.black.map (fun m => { m with check_str := s }) }
    (last' :: revRest).reverse

/-- `gamerules.py` `GameState.process_player_move`: parse, validate (threading
    the state through each candidate in the multi-match case), apply, and
    update clocks / histories / check flags.  Raises are `Except.error`;
    a `None` validation result returns the state unchanged (line 341). -/
def processPlayerMove (player_move : String) (g0 : GameState) :
    Except String GameState := do
  let last_passant := g0.board.en_passant_target
  let move_info ← match parseMove player_move with
    | some l => Except.ok l
    | Option.none => Except.error "ValueError: Invalid move"
  let step : Except String (Option Move × GameState) :=
    if move_info.length > 1 then do
      -- ambiguity sets returned by validate_move are silently dropped here:
      -- `isinstance(potential_move, list)` is False for a Python set
      let folded ← move_info.foldlM (fun (acc : List Move × GameState) md => do
        let r ← validateMove md acc.2 acc.2.turn
        match r.1 with
        | VResult.found m => Except.ok (acc.1 ++ [m], r.2)
        | _ => Except.ok (acc.1, r.2)) ([], g0)
      match folded.1 with
      | [m] => Except.ok (some m, folded.2)
      | _ => Except.error "Could not validate"
    else
      match move_info with
      | [md] => do
        let r ← validateMove md g0 g0.turn
        match r.1 with
        | VResult.found m => Except.ok (some m, r.2)
        | VResult.ambig _ => Except.error "Move is ambiguous"
        | VResult.failed => Except.ok (none, r.2)
      | _ => Except.error "ValueError: Invalid move"
  let (validated?, g1) ← step
  match validated? with
  | Option.none => Except.ok g1
  | some validated => do
    let last_turn := g1.turn
    let g2 ← makeMove g1 validated
    -- king-position update (lines 306-309)
    let g3 :=
      if validated.piece == (⟨Ptype.K, Colour.black⟩ : Piece) then
        { g2 with board := { g2.board with black_king_pos := validated.destination } }
      else if validated.piece == (⟨Ptype.K, Colour.white⟩ : Piece) then
        { g2 with board := { g2.board with white_king_pos := validated.destination } }
      else g2
    -- lines 311-312: clear the target only when it did not change this move
    let g4 :=
      if last_passant == g3.board.en_passant_target then
        { g3 with board := { g3.board with en_passant_target := none } }
      else g3
    let g5 :=
      if validated.is_capture || validated.piece.type == Ptype.p then
        { g4 with halfmove_clock := 0 }
      else { g4 with halfmove_clock := g4.halfmove_clock + 1 }
    let snapshot := generateFen g5
    let g6 :=
      if last_turn == Colour.black then
        let hist :=
          if g5.move_history.isEmpty then [({ black := some validated } : HistEntry)]
          else setHistMove g5.move_history last_turn validated
        { g5 with move_history := hist, fullmoves := g5.fullmoves + 1 }
      else
        let mh := g5.move_history ++ [({ white := some validated } : HistEntry)]
        let ph := dinsert g5.position_history (g5.fullmoves + 1) snapshot
        { g5 with move_history := mh, position_history := ph }
    -- remove halfmove and fullmove counts: snapshot[:-4]
    let snapshot_position := snapshot.dropRight 4
    let count := (dlookup g6.position_count snapshot_position).getD (0 : Int)
    let pc := dinsert g6.position_count snapshot_position (count + 1)
    let g7 := { g6 with position_count := pc }
    let g8 := updateCheck g7
    let g9 :=
      if g8.in_check.white || g8.in_check.black then
        { g8 with move_history := setHistCheckStr g8.move_history last_turn "+" }
      else g8
    Except.ok g9

/-- Replay a list of tokens through `process_player_move`. -/
def runTokens (tokens : List String) (g : GameState) : Except String GameState :=
  tokens.foldlM (fun g t => processPlayerMove t g) g

/-- Replay tokens the way `load_pgn` does — `process_player_move` then
    `check_if_end` per token — collecting every intermediate state. -/
def runTokensEnd (tokens : List String) (g : GameState) :
    Except String (GameState × List GameState) :=
  tokens.foldlM (fun (acc : GameState × List GameState) t => do
    let g1 ← processPlayerMove t acc.1
    let g2 ← checkIfEnd g1
    Except.ok (g2, acc.2 ++ [g2])) (g, [])

/-! ### Claim-specific inputs and spec-side definitions -/

/-- `GameState()` built from the standard initial position (the default
    construction path of `GameState.__init__`). -/
def initialGame : GameState := (loadFen GameState.new FEN_INITIAL true).1

/-- Modelled from the spec: the repetition key "board + turn + castling +
    en-passant, excluding the two move-clock fields" — the first four
    whitespace-separated fields of the position notation. -/
def positionKeyFields (fen : String) : String :=
  String.intercalate " " ((splitWhitespace fen).take 4)

/-- One of the 64 legal board coordinates: file a-h, rank 1-8. -/
def isBoardSquare (s : String) : Bool :=
  match s.data with
  | [f, r] => FILES.contains f && RANKS.contains r
  | _ => false

/-- C1: the immediate en-passant situation — 1. e4 a6 2. e5 d5 and now exd6. -/
def c1Tokens : List String := ["e4", "a6", "e5", "d5"]

def c1Game : Except String GameState :=
  match gameFromFen FEN_INITIAL with
  | some g => runTokens c1Tokens g
  | Option.none => Except.error "construction failed"

/-- C2: a lone white rook on its home square a1 with the queenside right set. -/
def c2Fen : String := "4k3/8/8/8/8/8/8/R3K3 w Q - 0 0"

def c2Game : Option (Except String GameState) :=
  (gameFromFen c2Fen).map (processPlayerMove "Ra2")

/-- C3: white may queenside-castle by rights and safety, but b1 is occupied. -/
def c3Fen : String := "4k3/8/8/8/8/8/8/RN2K3 w Q - 0 0"

def c3Castle : Move :=
  { origin := "e1", destination := "c1", piece := ⟨Ptype.K, Colour.white⟩,
    special := some "castling" }

/-- C4: white pawns on both e2 and e3, and the non-capture token e4. -/
def c4Fen : String := "4k3/8/8/8/8/4P3/4P3/4K3 w - - 0 0"

/-- The double-step starting rank of a pawn (rank 2 / rank 7). -/
def doubleOriginRankChar : Colour → Char
  | Colour.white => '2'
  | Colour.black => '7'

/-- The single-step origin rank for a double-step landing square (rank 3 / 6). -/
def singleOriginRankChar : Colour → Char
  | Colour.white => '3'
  | Colour.black => '6'

/-- The double-step landing rank (rank 4 / rank 5). -/
def doubleLandChar : Colour → Char
  | Colour.white => '4'
  | Colour.black => '5'

/-- The parsed form of a plain non-capture pawn token whose destination is the
    double-step landing square on file `f` (e.g. "e4" for white, "e5" for
    black), exactly as `parse_move` classifies it. -/
def pawnDoubleTok (player : Colour) (f : Char) : MoveData :=
  { move := String.mk [f, doubleLandChar player], type := "pawn",
    details := [("origin", none), ("capture", none),
                ("destination", some (String.mk [f, doubleLandChar player])),
                ("check", none)] }

def c4MoveData : MoveData := pawnDoubleTok Colour.white 'e'

/-- The game state built from `c4Fen`. -/
def c4State : GameState := (loadFen GameState.new c4Fen true).1

/-- The move `validate_move` actually returns for token e4 in `c4State`. -/
def c4Move : Move :=
  { origin := "e3", destination := "e4", piece := ⟨Ptype.p, Colour.white⟩ }

/-- C5: knight shuffles from a position whose halfmove clock is already 12,
    so the clock has two digits when the third repetition occurs. -/
def c5StartFen : String := "rnbqkbnr/pppppppp/8/8/8/8/PPPPPPPP/RNBQKBNR w KQkq - 12 6"

def c5Tokens : List String :=
  ["Nf3", "Nf6", "Ng1", "Ng8", "Nf3", "Nf6", "Ng1", "Ng8", "Nf3"]

def c5Run : Except String (GameState × List GameState) :=
  match gameFromFen c5StartFen with
  | some g => runTokensEnd c5Tokens g
  | Option.none => Except.error "construction failed"

/-- C6: a placement field whose first rank describes one file, not eight. -/
def c6Fen : String := "p/8/8/8/8/8/8/8 w KQkq - 0 0"

/-! ### Claim theorems -/

set_option maxRecDepth 1000000

set_option maxHeartbeats 4000000

/-- C1: the claim says an en-passant capture is accepted on the move
    immediately following the qualifying two-square advance.  The code never
    enables it in play: after 1. e4 a6 2. e5 d5, the board's en-passant target
    is still `none` — `validate_move` line 512 wrote the square into a stray
    `game.en_passant_target` attribute ("d6" here) instead of
    `game.board.en_passant_target` — and processing the immediate capture
    token "exd6" is rejected ("this move is not a capture"), returning the
    state unchanged. -/
theorem C1_en_passant_rejected_immediately :
    (c1Game.bind fun g4 =>
      (processPlayerMove "exd6" g4).map fun g5 =>
        (g4.board.en_passant_target, g4.stray_en_passant_target, decide (g5 = g4)))
    = Except.ok (Option.none, some "d6", true) := by rfl

/-- C2: the claim says a rook move away from a1 clears the white queenside
    castling flag.  Applying Ra2 from a state where the rook sits on a1 with
    the flag set leaves the flag `true`: `make_move` line 230 uses `==`
    (a discarded comparison) instead of `=`. -/
theorem C2_castling_right_not_cleared :
    (c2Game.map (fun r => r.map (fun g2 =>
      (g2.can_castle.white_queenside, g2.board.get "a2", g2.board.get "a1"))))
    = some (Except.ok (true, some ⟨Ptype.R, Colour.white⟩, Option.none)) := by rfl

/-- C3: the claim says castling is accepted only if every square strictly
    between king and rook is empty.  With a knight on b1 (and c1/d1 empty,
    rights set, e1/d1/c1 safe) `is_legal_move` accepts white's queenside
    castling: `can_castle_queenside` only tests the c- and d-file squares. -/
theorem C3_castles_across_occupied_b1 :
    ((gameFromFen c3Fen).map fun g => (g.board.get "b1", isLegalMove c3Castle g))
    = some (some ⟨Ptype.N, Colour.white⟩, Except.ok true) := by rfl

/-- C4 counterexample: with white pawns on both e2 and e3, resolving the
    non-capture token e4 (destination on the double-step landing rank) returns
    the move from e3 — origin rank 3, not the double-step starting rank 2
    claimed: `min(..., key=abs(double_rank - r))` picks the rank closest to
    the landing rank. -/
theorem C4_counterexample :
    parseMove "e4" = some [c4MoveData] ∧
    ((gameFromFen c4Fen).map fun g =>
      (validateMove c4MoveData g Colour.white).map (fun rg =>
        match rg.1 with
        | VResult.found m => some m.origin
        | _ => none))
    = some (Except.ok (some "e3")) := ⟨rfl, rfl⟩

/-- C5: the claim says threefold repetition is declared exactly when the
    position keyed by board/turn/castling/en-passant — the clock fields
    excluded — has occurred 3 times.  Replaying knight shuffles from a
    position whose halfmove clock starts at 12, the position after the ninth
    token has occurred three times under that key, yet the game is not ended:
    `check_if_end` strips the last four CHARACTERS of the FEN, which mangles
    the key once the clocks have more digits. -/
theorem C5_threefold_missed :
    (c5Run.map fun p =>
      (p.1.is_end, p.1.end_state,
       (p.2.map (fun s => positionKeyFields (generateFen s))).count
         (positionKeyFields (generateFen p.1))))
    = Except.ok (false, Option.none, 3) := by rfl

/-- C6: the claim says `load_fen` validates that every rank describes exactly
    8 files and rejects every malformed placement before mutating the board.
    The placement "p/8/8/8/8/8/8/8" (first rank: one file) passes the shape
    regex and is accepted with no error, building a board holding the single
    a8 pawn; and "p7p/..." (nine files) also passes the regex, after which
    `fen_to_board` mutates a8 and only then hits the IndexError. -/
theorem C6_malformed_fen_accepted :
    (loadFen GameState.new c6Fen true).2 = Option.none ∧
    (loadFen GameState.new c6Fen true).1.board.squares
      = [("a8", ⟨Ptype.p, Colour.black⟩)] ∧
    fenBoardShapeOk "p7p/8/8/8/8/8/8/8" = true ∧
    (fenToBoard "p7p/8/8/8/8/8/8/8" {}).2 = some "IndexError" ∧
    (fenToBoard "p7p/8/8/8/8/8/8/8" {}).1.squares
      = [("a8", ⟨Ptype.p, Colour.black⟩)] := ⟨rfl, rfl, rfl, rfl, rfl⟩

/-- C7: decoding the standard initial position notation and re-encoding it
    reproduces the input exactly (and the decoding raises no error). -/
theorem C7_roundtrip :
    (loadFen GameState.new FEN_INITIAL true).2 = Option.none ∧
    generateFen initialGame = FEN_INITIAL := ⟨rfl, rfl⟩

/-- C8: from the default standard initial position, `legal_moves()` returns
    exactly 20 legal moves for white. -/
theorem C8_twenty_legal_moves :
    (legalMovesList initialGame).map List.length = Except.ok 20 := by rfl

/-- C9: evaluating `is_legal_move(move, game)` — including the deep-clone
    `simulate_move` probe, which runs on the `deepcopy` of the state — leaves
    the caller's state unchanged: board mapping, king caches, en-passant
    target, turn, castling rights, clocks and histories are those passed in. -/
theorem C9_is_legal_move_frame (move : Move) (game : GameState) :
    (isLegalMoveCall move game).2.board.squares = game.board.squares ∧
    (isLegalMoveCall move game).2.board.white_king_pos = game.board.white_king_pos ∧
    (isLegalMoveCall move game).2.board.black_king_pos = game.board.black_king_pos ∧
    (isLegalMoveCall move game).2.board.en_passant_target = game.board.en_passant_target ∧
    (isLegalMoveCall move game).2.turn = game.turn ∧
    (isLegalMoveCall move game).2.can_castle = game.can_castle ∧
    (isLegalMoveCall move game).2.halfmove_clock = game.halfmove_clock ∧
    (isLegalMoveCall move game).2.fullmoves = game.fullmoves ∧
    (isLegalMoveCall move game).2.move_history = game.move_history ∧
    (isLegalMoveCall move game).2.position_history = game.position_history ∧
    (isLegalMoveCall move game).2.position_count = game.position_count ∧
    (isLegalMoveCall move game).2 = game :=
  ⟨rfl, rfl, rfl, rfl, rfl, rfl, rfl, rfl, rfl, rfl, rfl, rfl⟩

/-- C10 counterexample: the claim says every square emitted by
    `possible_destinations` is one of the 64 board coordinates for every piece
    on any square.  A white pawn on a8 yields exactly ["a9"] (rank 9): the
    straight one-step-forward square is appended without a bounds check. -/
theorem C10_counterexample :
    possibleDestinations ⟨Ptype.p, Colour.white⟩ "a8" {} false = ["a9"] ∧
    isBoardSquare "a9" = false := ⟨rfl, rfl⟩

/-! ### Helper lemmas for the universal claims -/

theorem isBoardSquare_sqStr_fileAt (fi r : Int) (h0 : 0 ≤ fi) (h1 : fi < 8)
    (h2 : 1 ≤ r) (h3 : r ≤ 8) : isBoardSquare (sqStr (fileAt fi) r) = true := by
  interval_cases fi <;> interval_cases r <;> rfl

theorem isBoardSquare_sqStr_file (f : Char) (r : Int) (hf : f ∈ FILES)
    (h2 : 1 ≤ r) (h3 : r ≤ 8) : isBoardSquare (sqStr f r) = true := by
  fin_cases hf <;> interval_cases r <;> rfl

theorem all_foldl {α β : Type} (P : α → Bool) (step : List α → β → List α)
    (hstep : ∀ acc b, acc.all P = true → (step acc b).all P = true) :
    ∀ (l : List β) (acc : List α), acc.all P = true → (l.foldl step acc).all P = true := by
  intro l
  induction l with
  | nil => intro acc h; exact h
  | cons b bs ih => intro acc h; exact ih _ (hstep acc b h)

theorem rayFrom_onBoard (board : Board) (fi r fs rs : Int) :
    ∀ (fuel : Nat) (off : Int),
      (rayFrom board fi r fs rs fuel off).all isBoardSquare = true := by
  intro fuel
  induction fuel with
  | zero => intro off; rfl
  | succ n ih =>
    intro off
    rw [rayFrom]
    split
    · rename_i h
      dsimp only
      split
      · simp only [List.all_cons, List.all_nil, Bool.and_true]
        exact isBoardSquare_sqStr_fileAt _ _ h.2.2.1 h.2.2.2 h.1 h.2.1
      · simp only [List.all_cons, Bool.and_eq_true]
        exact ⟨isBoardSquare_sqStr_fileAt _ _ h.2.2.1 h.2.2.2 h.1 h.2.1, ih _⟩
    · rfl

theorem findPawnAttacks_onBoard (f : Char) (r : Int) (c : Colour)
    (h2 : 1 ≤ r) (h3 : r ≤ 8) :
    (findPawnAttacks f r c).all isBoardSquare = true := by
  unfold findPawnAttacks
  split
  · rfl
  · rename_i hguard
    simp only [Bool.true_and, Bool.or_eq_true, beq_iff_eq, not_or] at hguard
    refine all_foldl _ _ ?_ _ [] rfl
    intro acc d hacc
    dsimp only
    split
    · rename_i hb
      rw [List.all_append]
      refine Bool.and_eq_true_iff.mpr ⟨hacc, ?_⟩
      simp only [List.all_cons, List.all_nil, Bool.and_true]
      cases c
      · exact isBoardSquare_sqStr_fileAt _ _ hb.1 hb.2 (by omega) (by omega)
      · exact isBoardSquare_sqStr_fileAt _ _ hb.1 hb.2 (by omega) (by omega)
    · exact hacc

theorem findKnightAttacks_onBoard (f : Char) (r : Int) :
    (findKnightAttacks f r).all isBoardSquare = true := by
  unfold findKnightAttacks
  refine all_foldl _ _ ?_ _ [] rfl
  intro acc d hacc
  refine all_foldl _ _ ?_ _ acc hacc
  intro acc2 e hacc2
  dsimp only
  split
  · exact hacc2
  · split
    · exact hacc2
    · rename_i hb _
      push_neg at hb
      rw [List.all_append]
      refine Bool.and_eq_true_iff.mpr ⟨hacc2, ?_⟩
      simp only [List.all_cons, List.all_nil, Bool.and_true]
      obtain ⟨-, hfile, hrank⟩ := hb
      exact isBoardSquare_sqStr_fileAt _ _ hfile.1 hfile.2 hrank.1 hrank.2

theorem findKingAttacks_onBoard (f : Char) (r : Int) :
    (findKingAttacks f r).all isBoardSquare = true := by
  unfold findKingAttacks
  refine all_foldl _ _ ?_ _ [] rfl
  intro acc d hacc
  dsimp only
  split
  · rename_i hb
    rw [List.all_append]
    refine Bool.and_eq_true_iff.mpr ⟨hacc, ?_⟩
    simp only [List.all_cons, List.all_nil, Bool.and_true]
    exact isBoardSquare_sqStr_fileAt _ _ hb.2.2.1 hb.2.2.2 hb.1 hb.2.1
  · exact hacc

theorem findBishopAttacks_onBoard (f : Char) (r : Int) (board : Board) :
    (findBishopAttacks f r board).all isBoardSquare = true := by
  unfold findBishopAttacks
  refine all_foldl _ _ ?_ _ [] rfl
  intro acc d hacc
  dsimp only
  rw [List.all_append]
  exact Bool.and_eq_true_iff.mpr ⟨hacc, rayFrom_onBoard _ _ _ _ _ _ _⟩

theorem findRookAttacks_onBoard (f : Char) (r : Int) (board : Board) :
    (findRookAttacks f r board).all isBoardSquare = true := by
  unfold findRookAttacks
  refine all_foldl _ _ ?_ _ [] rfl
  intro acc d hacc
  dsimp only
  rw [List.all_append]
  exact Bool.and_eq_true_iff.mpr ⟨hacc, rayFrom_onBoard _ _ _ _ _ _ _⟩

theorem rank_bounds_of_mem (rc : Char) (hr : rc ∈ RANKS) :
    1 ≤ charToInt rc ∧ charToInt rc ≤ 8 := by
  fin_cases hr <;> exact ⟨by decide, by decide⟩

theorem rank_le7_of_ne8 (rc : Char) (hr : rc ∈ RANKS) (h : rc ≠ '8') :
    charToInt rc ≤ 7 := by
  fin_cases hr <;> first | decide | exact absurd rfl h

theorem rank_ge2_of_ne1 (rc : Char) (hr : rc ∈ RANKS) (h : rc ≠ '1') :
    2 ≤ charToInt rc := by
  fin_cases hr <;> first | decide | exact absurd rfl h

/-- C10 amended: for a piece on any of the 64 squares and any occupancy, every
    square returned by `possible_destinations` is one of the 64 board
    coordinates, except for the unchecked pawn forward square when a white
    pawn stands on rank 8 or a black pawn on rank 1 (`attacks_only` false);
    the underlying attack generators are bounds-checked throughout. -/
theorem C10_amended (pc : Piece) (f rc : Char) (board : Board) (ao : Bool)
    (hf : f ∈ FILES) (hr : rc ∈ RANKS)
    (hp : ¬(pc.type = Ptype.p ∧ ao = false ∧
       ((pc.colour = Colour.white ∧ rc = '8') ∨ (pc.colour = Colour.black ∧ rc = '1')))) :
    (possibleDestinations pc (String.mk [f, rc]) board ao).all isBoardSquare = true := by
  obtain ⟨pt, pcol⟩ := pc
  obtain ⟨hr1, hr2⟩ := rank_bounds_of_mem rc hr
  cases pt with
  | N => exact findKnightAttacks_onBoard _ _
  | B => exact findBishopAttacks_onBoard _ _ _
  | R => exact findRookAttacks_onBoard _ _ _
  | Q =>
    show (findBishopAttacks f (charToInt rc) board
        ++ findRookAttacks f (charToInt rc) board).all isBoardSquare = true
    rw [List.all_append]
    exact Bool.and_eq_true_iff.mpr
      ⟨findBishopAttacks_onBoard _ _ _, findRookAttacks_onBoard _ _ _⟩
  | p =>
    cases ao with
    | true => exact findPawnAttacks_onBoard f (charToInt rc) pcol hr1 hr2
    | false =>
      simp only [eq_self_iff_true, true_and, not_or, not_and] at hp
      cases pcol with
      | white =>
        have hne : rc ≠ '8' := fun hrc => hp.1 rfl hrc
        have h7 := rank_le7_of_ne8 rc hr hne
        show (if (charToInt rc == 2) = true then
            findPawnAttacks f (charToInt rc) Colour.white
              ++ [sqStr f (charToInt rc + 1)] ++ [sqStr f (charToInt rc + 2 * 1)]
          else findPawnAttacks f (charToInt rc) Colour.white
              ++ [sqStr f (charToInt rc + 1)]).all isBoardSquare = true
        split
        · rename_i hdg
          simp only [beq_iff_eq] at hdg
          rw [List.all_append, List.all_append]
          refine Bool.and_eq_true_iff.mpr ⟨Bool.and_eq_true_iff.mpr
            ⟨findPawnAttacks_onBoard _ _ _ hr1 hr2, ?_⟩, ?_⟩
          · simp only [List.all_cons, List.all_nil, Bool.and_true]
            exact isBoardSquare_sqStr_file f _ hf (by omega) (by omega)
          · simp only [List.all_cons, List.all_nil, Bool.and_true]
            exact isBoardSquare_sqStr_file f _ hf (by omega) (by omega)
        · rw [List.all_append]
          refine Bool.and_eq_true_iff.mpr
            ⟨findPawnAttacks_onBoard _ _ _ hr1 hr2, ?_⟩
          simp only [List.all_cons, List.all_nil, Bool.and_true]
          exact isBoardSquare_sqStr_file f _ hf (by omega) (by omega)
      | black =>
        have hne : rc ≠ '1' := fun hrc => hp.2 rfl hrc
        have h2b := rank_ge2_of_ne1 rc hr hne
        show (if (charToInt rc == 7) = true then
            findPawnAttacks f (charToInt rc) Colour.black
              ++ [sqStr f (charToInt rc + -1)] ++ [sqStr f (charToInt rc + 2 * -1)]
          else findPawnAttacks f (charToInt rc) Colour.black
              ++ [sqStr f (charToInt rc + -1)]).all isBoardSquare = true
        split
        · rename_i hdg
          simp only [beq_iff_eq] at hdg
          rw [List.all_append, List.all_append]
          refine Bool.and_eq_true_iff.mpr ⟨Bool.and_eq_true_iff.mpr
            ⟨findPawnAttacks_onBoard _ _ _ hr1 hr2, ?_⟩, ?_⟩
          · simp only [List.all_cons, List.all_nil, Bool.and_true]
            exact isBoardSquare_sqStr_file f _ hf (by omega) (by omega)
          · simp only [List.all_cons, List.all_nil, Bool.and_true]
            exact isBoardSquare_sqStr_file f _ hf (by omega) (by omega)
        · rw [List.all_append]
          refine Bool.and_eq_true_iff.mpr
            ⟨findPawnAttacks_onBoard _ _ _ hr1 hr2, ?_⟩
          simp only [List.all_cons, List.all_nil, Bool.and_true]
          exact isBoardSquare_sqStr_file f _ hf (by omega) (by omega)
  | K =>
    cases pcol with
    | white =>
      show (if (String.mk [f, rc] == "e1" && !ao) = true then
          findKingAttacks f (charToInt rc)
            ++ [sqStr 'g' (charToInt rc), sqStr 'c' (charToInt rc)]
        else findKingAttacks f (charToInt rc)).all isBoardSquare = true
      split
      · rename_i hcond
        rw [Bool.and_eq_true, beq_iff_eq] at hcond
        have hd := congrArg String.data hcond.1
        simp only [List.cons.injEq] at hd
        obtain ⟨-, hrc, -⟩ := hd
        subst hrc
        rw [List.all_append]
        exact Bool.and_eq_true_iff.mpr ⟨findKingAttacks_onBoard _ _, by decide⟩
      · exact findKingAttacks_onBoard _ _
    | black =>
      show (if (String.mk [f, rc] == "e8" && !ao) = true then
          findKingAttacks f (charToInt rc)
            ++ [sqStr 'g' (charToInt rc), sqStr 'c' (charToInt rc)]
        else findKingAttacks f (charToInt rc)).all isBoardSquare = true
      split
      · rename_i hcond
        rw [Bool.and_eq_true, beq_iff_eq] at hcond
        have hd := congrArg String.data hcond.1
        simp only [List.cons.injEq] at hd
        obtain ⟨-, hrc, -⟩ := hd
        subst hrc
        rw [List.all_append]
        exact Bool.and_eq_true_iff.mpr ⟨findKingAttacks_onBoard _ _, by decide⟩
      · exact findKingAttacks_onBoard _ _

/-- C10 amended witness: a white knight on d4 over an empty board. -/
theorem C10_amended_witness :
    ('d' ∈ FILES) ∧ ('4' ∈ RANKS) ∧
    (possibleDestinations ⟨Ptype.N, Colour.white⟩ (String.mk ['d', '4']) {} false).all
      isBoardSquare = true :=
  ⟨by decide, by decide,
    C10_amended ⟨Ptype.N, Colour.white⟩ 'd' '4' {} false (by decide) (by decide) (by decide)⟩

/-- C4 amended: when both candidate origin squares hold the player's pawns,
    the Move returned by `validate_move` for the plain double-landing-rank
    pawn token has its origin on the single-step rank (3 for white, 6 for
    black) — forced, since the double-step path is blocked. -/
theorem C4_amended (g : GameState) (player : Colour) (f : Char) (m : Move)
    (g2 : GameState)
    (h2 : g.board.get (String.mk [f, doubleOriginRankChar player])
      = some ⟨Ptype.p, player⟩)
    (h3 : g.board.get (String.mk [f, singleOriginRankChar player])
      = some ⟨Ptype.p, player⟩)
    (hv : validateMove (pawnDoubleTok player f) g player
      = Except.ok (VResult.found m, g2)) :
    m.origin = String.mk [f, singleOriginRankChar player] := by
  cases player with
  | white =>
    rw [validateMove] at hv
    simp only [pawnDoubleTok, doubleLandChar] at hv
    simp [dlookup, charToInt, sqFile, sqRankInt] at hv
    split at hv
    · exact absurd hv (by simp)
    · rename_i hn
      push_neg at hn
      obtain ⟨hep, hsq⟩ := hn
      have e2 : g.board.get (String.mk [f] ++ toString (2 : Int))
          = some (⟨Ptype.p, Colour.white⟩ : Piece) := h2
      have e3 : g.board.get (String.mk [f] ++ toString (3 : Int))
          = some (⟨Ptype.p, Colour.white⟩ : Piece) := h3
      simp [List.filter_cons, List.filter_nil, e2, e3, hep, hsq] at hv
      generalize hL : isLegalMove _ g = res at hv
      cases res with
      | error e => simp [Bind.bind, Except.bind] at hv
      | ok b =>
        cases b with
        | false => simp [Bind.bind, Except.bind] at hv
        | true =>
          have hx := congrArg (fun x : Except String (VResult × GameState) =>
            match x with
            | Except.ok (VResult.found mm, _) => mm.origin
            | _ => "!") hv
          exact hx.symm
  | black =>
    rw [validateMove] at hv
    simp only [pawnDoubleTok, doubleLandChar] at hv
    simp [dlookup, charToInt, sqFile, sqRankInt] at hv
    split at hv
    · exact absurd hv (by simp)
    · rename_i hn
      push_neg at hn
      obtain ⟨hep, hsq⟩ := hn
      have e7 : g.board.get (String.mk [f] ++ toString (7 : Int))
          = some (⟨Ptype.p, Colour.black⟩ : Piece) := h2
      have e6 : g.board.get (String.mk [f] ++ toString (6 : Int))
          = some (⟨Ptype.p, Colour.black⟩ : Piece) := h3
      simp [List.filter_cons, List.filter_nil, e7, e6, hep, hsq] at hv
      generalize hL : isLegalMove _ g = res at hv
      cases res with
      | error e => simp [Bind.bind, Except.bind] at hv
      | ok b =>
        cases b with
        | false => simp [Bind.bind, Except.bind] at hv
        | true =>
          have hx := congrArg (fun x : Except String (VResult × GameState) =>
            match x with
            | Except.ok (VResult.found mm, _) => mm.origin
            | _ => "!") hv
          exact hx.symm

/-- C4 amended witness: the `c4Fen` position (white pawns on e2 and e3) with
    the token e4; the resolved move's origin is e3. -/
theorem C4_amended_witness :
    c4State.board.get (String.mk ['e', doubleOriginRankChar Colour.white])
      = some ⟨Ptype.p, Colour.white⟩ ∧
    c4State.board.get (String.mk ['e', singleOriginRankChar Colour.white])
      = some ⟨Ptype.p, Colour.white⟩ ∧
    validateMove (pawnDoubleTok Colour.white 'e') c4State Colour.white
      = Except.ok (VResult.found c4Move, c4State) ∧
    c4Move.origin = String.mk ['e', singleOriginRankChar Colour.white] :=
  ⟨rfl, rfl, rfl,
    C4_amended c4State Colour.white 'e' c4Move c4State rfl rfl rfl⟩

end SleepysChess
